import Mathlib

/-!
Verification of doc/examples/applications/plot_3d_image_processing.py.

The script is a linear tutorial over one 3D grayscale array
`data = ski.util.img_as_float(ski.data.cells3d()[:, 1, :, :])` of shape
(60, 256, 256), a spacing 3-vector, a handful of plotting helper functions,
and three contrast transforms (gamma adjustment, histogram equalization,
percentile rescaling).  Pixel intensities are embedded as exact rationals
(or reals where irrational powers arise); the decimal literals of the
script are taken at face value.  Library calls whose bodies are not part of
this repository (matplotlib, numpy, scikit-image, ipywidgets) are modelled
from the spec where a claim depends on their behavior; each such definition
says so in its doc comment.
-/

namespace Plot3DImage

/-- Shape of the global array `data`: the nuclei channel of the cells3d
volume, 60 planes of 256 rows by 256 columns.  The script itself hardcodes
this shape as `(60, 256, 256)` in `slice_in_3D` (line 178). -/
def dataShape : List Nat := [60, 256, 256]

/-- Line 65: `original_spacing = np.array([0.2900000, 0.0650000, 0.0650000])`,
the spacing reported by the microscope, as exact rationals. -/
def original_spacing : List ℚ := [29/100, 65/1000, 65/1000]

/-- Line 68: `rescaled_spacing = original_spacing * [1, 4, 4]`, the
elementwise product accounting for the 4x downsampling of rows and columns. -/
def rescaled_spacing : List ℚ := List.zipWith (· * ·) original_spacing [1, 4, 4]

/-- Line 71: `spacing = rescaled_spacing / rescaled_spacing[2]`, the
elementwise quotient by the third component. -/
def spacing : List ℚ := rescaled_spacing.map (fun x => x / rescaled_spacing.getD 2 0)

/-- Claim C6 counterexample: the normalized spacing vector is not any scalar
multiple of the original (microscope) spacing vector: the rescaling factors
[1, 4, 4] destroy proportionality, so `spacing = [29/26, 1, 1]` is not
proportional to `[29/100, 65/1000, 65/1000]`. -/
theorem c6_counterexample :
    ¬ ∃ c : ℚ, spacing = original_spacing.map (fun x => c * x) := by
  have hs : spacing = [29/26, 1, 1] := by
    simp only [spacing, rescaled_spacing, original_spacing]
    norm_num [List.getD]
  rintro ⟨c, h⟩
  rw [hs] at h
  simp only [original_spacing, List.map, List.cons.injEq, and_true] at h
  obtain ⟨h0, h1, -⟩ := h
  linarith

/-- Claim C6 (amended): the spacing normalization of line 71 is a
three-element scalar multiplication, the scalar being the reciprocal of the
third component of the vector being normalized: the normalized spacing
equals the *rescaled* spacing multiplied by the single scalar
`1 / rescaled_spacing[2]`. -/
theorem c6_normalization_scalar_mult :
    spacing = rescaled_spacing.map (fun x => (1 / rescaled_spacing.getD 2 0) * x) := by
  simp only [spacing, rescaled_spacing, original_spacing]
  norm_num [List.getD]

/-- Claim C7: all three spacing values of the script are strictly positive
3-vectors: the microscope spacing, the rescaled spacing, and the normalized
spacing each have exactly three components, all strictly greater than 0. -/
theorem c7_spacing_positive :
    (original_spacing.length = 3 ∧ ∀ x ∈ original_spacing, 0 < x) ∧
    (rescaled_spacing.length = 3 ∧ ∀ x ∈ rescaled_spacing, 0 < x) ∧
    (spacing.length = 3 ∧ ∀ x ∈ spacing, 0 < x) := by
  refine ⟨⟨rfl, ?_⟩, ⟨rfl, ?_⟩, ⟨rfl, ?_⟩⟩ <;>
    · intro x hx
      simp only [original_spacing, rescaled_spacing, spacing,
        List.zipWith, List.map, List.mem_cons, List.not_mem_nil, or_false,
        List.getD] at hx
      rcases hx with rfl | rfl | rfl <;> norm_num

/-- Claim C7 witness: the positivity statement applied to the first
component of the microscope spacing. -/
theorem c7_spacing_positive_witness :
    (29/100 : ℚ) ∈ original_spacing ∧ 0 < (29/100 : ℚ) := by
  have hm : (29/100 : ℚ) ∈ original_spacing := by
    simp [original_spacing]
  exact ⟨hm, c7_spacing_positive.1.2 _ hm⟩

/-- Python exception classes relevant to the script's only try/except:
`TypeError` (raised by the 2D-only display call on 3D input and named in the
`except` clause) and two other builtin exception classes standing for every
error the script does not handle. -/
inductive PyError
| typeKindError
| valueKindError
| indexKindError
deriving DecidableEq

/-- Modelled from the spec: matplotlib's 2D-only display call.  `ax.imshow`
accepts a 2D grayscale array or a 2D multichannel array whose final axis has
3 (RGB) or 4 (RGBA) channels; on any other shape it raises a TypeError
about an invalid shape. -/
def imshowAccepts (shape : List Nat) : Bool :=
  shape.length == 2 ||
    (shape.length == 3 && (shape.getLast? == some 3 || shape.getLast? == some 4))

/-- Modelled from the spec: `ax.imshow(data)` succeeds on an accepted shape
and raises a TypeError otherwise. -/
def imshow (shape : List Nat) : Except PyError Unit :=
  if imshowAccepts shape then .ok () else .error .typeKindError

/-- Outcome of a guarded script statement: either execution continues (with
the list of error messages printed along the way) or an uncaught exception
propagates and aborts the script. -/
inductive Outcome
| continued (printed : List PyError)
| crashed (e : PyError)
deriving DecidableEq

/-- Lines 85–86: the predicate of the script's only `except` clause,
`except TypeError as e`.  It matches exactly the TypeError class. -/
def handledByExceptClause (e : PyError) : Bool :=
  match e with
  | .typeKindError => true
  | _ => false

/-- Lines 82–86: the try/except block around `ax.imshow(data, cmap='gray')`.
A TypeError is caught and its message printed, after which the script
continues; any other exception would propagate. -/
def tryImshowData : Outcome :=
  match imshow dataShape with
  | .ok _ => .continued []
  | .error e => if handledByExceptClause e then .continued [e] else .crashed e

/-- The `except` clauses of the whole script, in program order: the block at
lines 82–86 is the only one. -/
def scriptExceptClauses : List (PyError → Bool) := [handledByExceptClause]

/-- Claim C1: rendering the 3D array with the 2D-only display call fails
with a TypeError (its shape (60, 256, 256) is neither 2D nor RGB(A)), the
script catches exactly that TypeError, prints its message and continues
executing normally, and the script contains no other exception handler,
with the one handler matching nothing but TypeError. -/
theorem c1_imshow_3d_typeerror_caught :
    imshowAccepts dataShape = false ∧
    imshow dataShape = .error .typeKindError ∧
    tryImshowData = .continued [.typeKindError] ∧
    scriptExceptClauses.length = 1 ∧
    (∀ e, handledByExceptClause e = true ↔ e = .typeKindError) := by
  refine ⟨rfl, rfl, rfl, rfl, ?_⟩
  intro e
  cases e <;> simp [handledByExceptClause]

/-- Lower end of the slider range `(0, N - 1)` built by `@interact` in
`explore_slices` (line 200). -/
def sliderLo (N : Nat) : Nat := 0

/-- Upper end of the slider range `(0, N - 1)` built by `@interact` in
`explore_slices` (line 200), with ℕ truncated subtraction. -/
def sliderHi (N : Nat) : Nat := N - 1

/-- Line 201: the fixed default of `display_slice(plane=34)`, independent of
the array passed to `explore_slices`. -/
def defaultPlane : Nat := 34

/-- `data[plane]` is in bounds exactly when the plane index is below the
number of planes `N = len(data)`. -/
def planeInBounds (N p : Nat) : Prop := p < N

instance (N p : Nat) : Decidable (planeInBounds N p) := Nat.decLt p N

/-- Claim C10: for a nonempty data array with N planes, the slider range
(0, N−1) covers exactly the valid plane indices; when N ≤ 34 the fixed
default plane 34 of the initial `display_slice` call lies outside both the
slider range and the array bounds; and when N ≥ 35 every slider-selected
plane index is in bounds (including the default). -/
theorem c10_explore_slices_slider_bounds (N : Nat) (hN : 1 ≤ N) :
    (∀ p, (sliderLo N ≤ p ∧ p ≤ sliderHi N) ↔ planeInBounds N p) ∧
    (N ≤ 34 →
      ¬ planeInBounds N defaultPlane ∧ ¬ (defaultPlane ≤ sliderHi N)) ∧
    (35 ≤ N → ∀ p, sliderLo N ≤ p → p ≤ sliderHi N → planeInBounds N p) := by
  unfold sliderLo sliderHi defaultPlane planeInBounds
  refine ⟨fun p => ?_, fun h => ?_, fun h p hp1 hp2 => ?_⟩ <;> omega

/-- Claim C10 witness: the slider bounds facts instantiated at the script's
actual plane count N = 60. -/
theorem c10_explore_slices_slider_bounds_witness :
    (∀ p, (sliderLo 60 ≤ p ∧ p ≤ sliderHi 60) ↔ planeInBounds 60 p) ∧
    (60 ≤ 34 →
      ¬ planeInBounds 60 defaultPlane ∧ ¬ (defaultPlane ≤ sliderHi 60)) ∧
    (35 ≤ 60 → ∀ p, sliderLo 60 ≤ p → p ≤ sliderHi 60 → planeInBounds 60 p) :=
  c10_explore_slices_slider_bounds 60 (by decide)

/-- Modelled from the spec: `np.clip`, restricting a value to [lo, hi]. -/
def clip (x lo hi : ℚ) : ℚ := min (max x lo) hi

/-- Modelled from the spec: gamma correction is "a power-law pixel-intensity
remapping".  For the script's floating-point image, skimage's
`adjust_gamma` (default gain 1, as called at lines 243 and 246) maps every
pixel x to x ** gamma. -/
noncomputable def adjustGamma (pixels : List ℝ) (gamma : ℝ) : List ℝ :=
  pixels.map (fun x => x ^ gamma)

/-- Empirical cumulative distribution of the pixel multiset `l` evaluated at
threshold `t`: the fraction of pixels that are ≤ t. -/
def ecdf (l : List ℚ) (t : ℚ) : ℚ :=
  ((l.countP (fun x => decide (x ≤ t)) : ℚ)) / ((l.length : ℚ))

/-- Modelled from the spec: histogram equalization is "a global intensity
remapping that flattens the output intensity distribution"; skimage's
`equalize_hist` (line 267) maps every pixel to the empirical CDF of the
image evaluated at that pixel. -/
def equalizeHist (l : List ℚ) : List ℚ := l.map (ecdf l)

/-- Kolmogorov–Smirnov style discrepancy of a pixel list from the uniform
distribution on [0, 1], sampled at the pixel values: the largest gap between
the empirical CDF and the uniform CDF (which is the identity) over the
pixels, and 0 for the empty list.  This is the fixed distance between the
empirical intensity distribution and the uniform one used for claim C4. -/
def ksDisc (l : List ℚ) : ℚ :=
  (l.map (fun x => |ecdf l x - x|)).foldr max 0

/-- Insertion into an ascending-sorted rational list. -/
def insertAsc (x : ℚ) : List ℚ → List ℚ
  | [] => [x]
  | y :: ys => if x ≤ y then x :: y :: ys else y :: insertAsc x ys

/-- Ascending insertion sort, standing for the sort inside `np.percentile`. -/
def sortAsc (l : List ℚ) : List ℚ := l.foldr insertAsc []

/-- Modelled from the spec: `np.percentile` with its default linear
interpolation, as called at line 301.  For a nonempty list the q-th
percentile sits at fractional position q/100·(n−1) of the sorted values and
is linearly interpolated between the two neighbouring order statistics. -/
def percentile (l : List ℚ) (q : ℚ) : ℚ :=
  let s := sortAsc l
  if s.length = 0 then 0
  else
    let pos : ℚ := q / 100 * (((s.length - 1 : ℕ)) : ℚ)
    let i : Nat := (⌊pos⌋).toNat
    let frac : ℚ := pos - ((i : ℚ))
    let a : ℚ := s.getD i 0
    let b : ℚ := s.getD (i + 1) a
    a + frac * (b - a)

/-- Modelled from the spec: percentile clipping "rescal[es] intensities
using fixed lower/upper percentile bounds as the input range".  Following
skimage's `rescale_intensity` with `out_range=np.float32` and a nonnegative
lower input bound (the script's case at lines 303–305, since `data` is
nonnegative), the output range is (0, 1): pixels are clipped to
[imin, imax] and affinely mapped onto [0, 1]; when imax = imin the clipped
image is clipped again to [0, 1]. -/
def rescaleIntensity (l : List ℚ) (imin imax : ℚ) : List ℚ :=
  let c := l.map (fun x => clip x imin imax)
  if imax ≠ imin then c.map (fun x => (x - imin) / (imax - imin))
  else c.map (fun x => clip x 0 1)

/-- Dynamic range max(l) − min(l) of a pixel list (0 for the empty list). -/
def listSpan : List ℚ → ℚ
  | [] => 0
  | x :: xs => xs.foldl max x - xs.foldl min x

/-- Smallest pixel of a real-valued image, `data.min()` (0 for []). -/
noncomputable def rListMin : List ℝ → ℝ
  | [] => 0
  | x :: xs => xs.foldl min x

/-- Largest pixel of a real-valued image, `data.max()` (0 for []). -/
noncomputable def rListMax : List ℝ → ℝ
  | [] => 0
  | x :: xs => xs.foldl max x

/-- Claim C3 counterexample: gamma correction does not stay within the
intensity range [min, max] of the image.  For the one-pixel image [1/4],
whose intensity range is [1/4, 1/4], `adjust_gamma` with the script's
gamma_low value 0.5 produces the pixel (1/4)^(1/2) = 1/2, which exceeds the
range's upper end. -/
theorem c3_counterexample :
    ∃ y ∈ adjustGamma [(1/4 : ℝ)] (1/2),
      ¬ (rListMin [(1/4 : ℝ)] ≤ y ∧ y ≤ rListMax [(1/4 : ℝ)]) := by
  have key : ((1:ℝ)/4) ^ ((1:ℝ)/2) = 1/2 := by
    have h2 : ((1:ℝ)/4) = ((1:ℝ)/2) ^ ((2:ℝ)) := by
      rw [show ((2:ℝ)) = (((2:ℕ)) : ℝ) by norm_num, Real.rpow_natCast]
      norm_num
    rw [h2, ← Real.rpow_mul (by norm_num : (0:ℝ) ≤ 1/2)]
    rw [show ((2:ℝ)) * (1/2) = 1 by norm_num, Real.rpow_one]
  refine ⟨((1:ℝ)/4) ^ ((1:ℝ)/2), ?_, ?_⟩
  · simp [adjustGamma]
  · rw [key]
    simp only [rListMin, rListMax, List.foldl]
    intro h
    obtain ⟨-, h2⟩ := h
    norm_num at h2

/-- Helper for claim C3: a power-law remapping with nonnegative exponent
keeps unit-interval pixels in the unit interval. -/
theorem gamma_pixel_unit_range {l : List ℝ} {g : ℝ} (hg : 0 ≤ g)
    (hl : ∀ x ∈ l, 0 ≤ x ∧ x ≤ 1) :
    ∀ y ∈ adjustGamma l g, 0 ≤ y ∧ y ≤ 1 := by
  intro y hy
  simp only [adjustGamma, List.mem_map] at hy
  obtain ⟨x, hx, rfl⟩ := hy
  obtain ⟨h0, h1⟩ := hl x hx
  exact ⟨Real.rpow_nonneg h0 g, Real.rpow_le_one h0 h1 hg⟩

/-- Claim C3 (amended): for every float image whose pixel values lie in the
valid float intensity range [0, 1] (which contains the original intensity
range [min(data), max(data)]), the gamma-corrected outputs for both script
calls — gamma 0.5 and gamma 1.5 — stay within [0, 1].  They need not stay
within [min(data), max(data)] itself. -/
theorem c3_gamma_stays_in_unit_range (l : List ℝ)
    (hl : ∀ x ∈ l, 0 ≤ x ∧ x ≤ 1) :
    (∀ y ∈ adjustGamma l (1/2), 0 ≤ y ∧ y ≤ 1) ∧
    (∀ y ∈ adjustGamma l (3/2), 0 ≤ y ∧ y ≤ 1) :=
  ⟨gamma_pixel_unit_range (by norm_num) hl, gamma_pixel_unit_range (by norm_num) hl⟩

/-- Claim C3 witness: the amended statement applied to the concrete image
[0, 1/2, 1]. -/
theorem c3_gamma_stays_in_unit_range_witness :
    (∀ x ∈ [(0:ℝ), 1/2, 1], 0 ≤ x ∧ x ≤ 1) ∧
    ((∀ y ∈ adjustGamma [(0:ℝ), 1/2, 1] (1/2), 0 ≤ y ∧ y ≤ 1) ∧
     (∀ y ∈ adjustGamma [(0:ℝ), 1/2, 1] (3/2), 0 ≤ y ∧ y ≤ 1)) := by
  have hl : ∀ x ∈ [(0:ℝ), 1/2, 1], 0 ≤ x ∧ x ≤ 1 := by
    intro x hx
    simp only [List.mem_cons, List.not_mem_nil, or_false] at hx
    rcases hx with rfl | rfl | rfl <;> norm_num
  exact ⟨hl, c3_gamma_stays_in_unit_range [(0:ℝ), 1/2, 1] hl⟩

/-- Helper: the count of pixels below a threshold is monotone in the
threshold. -/
theorem countP_le_threshold_mono (l : List ℚ) {x z : ℚ} (hxz : x ≤ z) :
    l.countP (fun a => decide (a ≤ x)) ≤ l.countP (fun a => decide (a ≤ z)) :=
  List.countP_mono_left (fun a _ ha => by
    simp only [decide_eq_true_eq] at ha ⊢
    exact le_trans ha hxz)

/-- Helper: a pixel of the image strictly above a threshold makes the count
at the threshold strictly smaller than the count at that pixel. -/
theorem countP_lt_of_mem_gt {l : List ℚ} {x z : ℚ} (hz : z ∈ l) (hxz : x < z) :
    l.countP (fun a => decide (a ≤ x)) < l.countP (fun a => decide (a ≤ z)) := by
  induction l with
  | nil => cases hz
  | cons b t ih =>
    rw [List.countP_cons, List.countP_cons]
    have hmono : t.countP (fun a => decide (a ≤ x)) ≤ t.countP (fun a => decide (a ≤ z)) :=
      countP_le_threshold_mono t hxz.le
    rcases List.mem_cons.mp hz with rfl | hz'
    · rw [decide_eq_false (not_le.mpr hxz), decide_eq_true (le_refl z)]
      simp only [Bool.false_eq_true, if_false, if_true]
      omega
    · have hlt := ih hz'
      by_cases h1 : b ≤ x
      · rw [decide_eq_true h1, decide_eq_true (le_trans h1 hxz.le)]
        simp only [if_true]
        omega
      · rw [decide_eq_false h1]
        simp only [Bool.false_eq_true, if_false]
        by_cases h2 : b ≤ z
        · rw [decide_eq_true h2]
          simp only [if_true]
          omega
        · rw [decide_eq_false h2]
          simp only [Bool.false_eq_true, if_false]
          omega

/-- Helper: for a pixel z of the image, comparing empirical CDF values
against any threshold pixel x is the same as comparing the pixels. -/
theorem ecdf_le_ecdf_iff {l : List ℚ} {x z : ℚ} (hz : z ∈ l) :
    (ecdf l z ≤ ecdf l x) ↔ z ≤ x := by
  have hn : (0:ℚ) < ((l.length : ℚ)) := by
    have := List.length_pos.mpr (List.ne_nil_of_mem hz)
    exact_mod_cast this
  unfold ecdf
  rw [div_le_div_iff_of_pos_right hn, Nat.cast_le]
  constructor
  · intro h
    by_contra hzx
    have := countP_lt_of_mem_gt hz (not_le.mp hzx)
    omega
  · exact fun h => countP_le_threshold_mono l h

/-- Helper: the empirical CDF of a remapped image counts source pixels whose
images fall below the threshold. -/
theorem ecdf_map (l : List ℚ) (f : ℚ → ℚ) (t : ℚ) :
    ecdf (l.map f) t =
      ((l.countP (fun a => decide (f a ≤ t)) : ℚ)) / ((l.length : ℚ)) := by
  unfold ecdf
  rw [List.countP_map, List.length_map]
  rfl

/-- Helper: the empirical CDF of the equalized image is the identity at the
equalized pixel values (the probability integral transform is exact on its
own samples, ties included). -/
theorem ecdf_equalizeHist (l : List ℚ) (x : ℚ) :
    ecdf (equalizeHist l) (ecdf l x) = ecdf l x := by
  have hc : l.countP (fun a => decide (ecdf l a ≤ ecdf l x)) =
      l.countP (fun a => decide (a ≤ x)) :=
    List.countP_congr (fun a ha => by
      simp only [decide_eq_true_eq]
      exact ecdf_le_ecdf_iff ha)
  rw [show equalizeHist l = l.map (ecdf l) from rfl, ecdf_map, hc]
  rfl

/-- Helper: a fold of max over rationals started at 0 is nonnegative. -/
theorem foldr_max_nonneg (l : List ℚ) : 0 ≤ l.foldr max 0 := by
  induction l with
  | nil => exact le_refl 0
  | cons a t ih => exact le_trans ih (le_max_right a (t.foldr max 0))

/-- Helper: a fold of max over an all-zero list is 0. -/
theorem foldr_max_zero {l : List ℚ} (h : ∀ a ∈ l, a = 0) : l.foldr max 0 = 0 := by
  induction l with
  | nil => rfl
  | cons a t ih =>
    have ha : a = 0 := h a (List.mem_cons_self a t)
    have ht : t.foldr max 0 = 0 := ih (fun b hb => h b (List.mem_cons_of_mem a hb))
    simp [List.foldr, ha, ht]

/-- Helper: the equalized image is at distance exactly 0 from the uniform
distribution under the sampled KS discrepancy. -/
theorem ksDisc_equalizeHist (l : List ℚ) : ksDisc (equalizeHist l) = 0 := by
  unfold ksDisc
  apply foldr_max_zero
  intro a ha
  simp only [List.mem_map] at ha
  obtain ⟨y, hy, rfl⟩ := ha
  simp only [equalizeHist, List.mem_map] at hy
  obtain ⟨x, -, rfl⟩ := hy
  rw [ecdf_equalizeHist l x, sub_self, abs_zero]

/-- Claim C4 (amended): for every input image, the histogram of
`equalize_hist`'s output is at least as close to the uniform distribution as
the input's (under the sampled KS discrepancy `ksDisc`): the output's
discrepancy is exactly 0.  It is not strictly closer for every input — an
already-equalized input has equal distance. -/
theorem c4_equalized_at_least_as_uniform (l : List ℚ) :
    ksDisc (equalizeHist l) ≤ ksDisc l := by
  rw [ksDisc_equalizeHist]
  unfold ksDisc
  exact foldr_max_nonneg _

/-- Claim C4 counterexample: the constant image [1] is a fixed point of
`equalize_hist`, so its histogram is not strictly closer to uniform after
equalization: both distances are 0. -/
theorem c4_counterexample :
    ¬ (ksDisc (equalizeHist [(1:ℚ)]) < ksDisc [(1:ℚ)]) := by
  have h1 : equalizeHist [(1:ℚ)] = [(1:ℚ)] := by
    simp [equalizeHist, ecdf, List.countP_cons]
  rw [h1]
  exact lt_irrefl _

/-- Helper: every pixel produced by `rescale_intensity` with float output
range lies in the unit interval [0, 1]. -/
theorem rescaleIntensity_mem_unit {l : List ℚ} {imin imax : ℚ} :
    ∀ y ∈ rescaleIntensity l imin imax, 0 ≤ y ∧ y ≤ 1 := by
  intro y hy
  unfold rescaleIntensity at hy
  by_cases h : imax = imin
  · simp only [h, ne_eq, not_true_eq_false, if_false, List.map_map, List.mem_map] at hy
    obtain ⟨x, -, rfl⟩ := hy
    simp only [Function.comp_apply]
    unfold clip
    exact ⟨le_min (le_max_right _ 0) zero_le_one, min_le_right _ 1⟩
  · simp only [ne_eq, h, not_false_eq_true, if_true, List.map_map, List.mem_map] at hy
    obtain ⟨x, -, rfl⟩ := hy
    simp only [Function.comp_apply]
    rcases lt_or_gt_of_ne h with hlt | hgt
    · -- imax < imin: everything clips to imax and rescales to 1
      have hclip : clip x imin imax = imax :=
        min_eq_right (le_trans hlt.le (le_max_right x imin))
      rw [hclip, div_self (sub_ne_zero_of_ne h)]
      exact ⟨zero_le_one, le_refl 1⟩
    · -- imin < imax: the clipped pixel is affinely mapped into [0, 1]
      have hlo : imin ≤ clip x imin imax :=
        le_min (le_max_right x imin) hgt.le
      have hhi : clip x imin imax ≤ imax := min_le_right _ _
      constructor
      · exact div_nonneg (sub_nonneg.mpr hlo) (sub_nonneg.mpr hgt.le)
      · rw [div_le_one (sub_pos.mpr hgt)]
        exact sub_le_sub_right hhi imin

/-- Helper: a max-fold stays at most 1 when the seed and all elements are. -/
theorem foldl_max_le_one {xs : List ℚ} {b : ℚ} (hb : b ≤ 1)
    (h : ∀ a ∈ xs, a ≤ 1) : xs.foldl max b ≤ 1 := by
  induction xs generalizing b with
  | nil => exact hb
  | cons a t ih =>
    exact ih (max_le hb (h a (List.mem_cons_self a t)))
      (fun a' ha' => h a' (List.mem_cons_of_mem a ha'))

/-- Helper: a min-fold stays nonnegative when the seed and all elements are. -/
theorem foldl_min_nonneg {xs : List ℚ} {b : ℚ} (hb : 0 ≤ b)
    (h : ∀ a ∈ xs, 0 ≤ a) : 0 ≤ xs.foldl min b := by
  induction xs generalizing b with
  | nil => exact hb
  | cons a t ih =>
    exact ih (le_min hb (h a (List.mem_cons_self a t)))
      (fun a' ha' => h a' (List.mem_cons_of_mem a ha'))

/-- Helper: a pixel list inside [0, 1] has dynamic range at most 1. -/
theorem listSpan_le_one {l : List ℚ} (h : ∀ y ∈ l, 0 ≤ y ∧ y ≤ 1) :
    listSpan l ≤ 1 := by
  cases l with
  | nil => norm_num [listSpan]
  | cons x xs =>
    have hmax : xs.foldl max x ≤ 1 :=
      foldl_max_le_one (h x (List.mem_cons_self x xs)).2
        (fun a ha => (h a (List.mem_cons_of_mem x ha)).2)
    have hmin : 0 ≤ xs.foldl min x :=
      foldl_min_nonneg (h x (List.mem_cons_self x xs)).1
        (fun a ha => (h a (List.mem_cons_of_mem x ha)).1)
    simp only [listSpan]
    linarith

/-- Claim C5 (amended): rescaling intensities onto the float output range
keeps all pixels in [0, 1], so whenever the input's dynamic range is at
least 1 — as for `data`, which spans the full [0, 1] float range — the
output's dynamic range max(output) − min(output) is at most the input's.
For inputs whose dynamic range is below 1 the rescaling can enlarge it. -/
theorem c5_rescale_bounded_dynamic_range (l : List ℚ) (imin imax : ℚ)
    (h : 1 ≤ listSpan l) :
    listSpan (rescaleIntensity l imin imax) ≤ listSpan l :=
  le_trans (listSpan_le_one rescaleIntensity_mem_unit) h

/-- Claim C5 witness: the amended statement applied to the two-pixel image
[0, 1] of dynamic range exactly 1, with the script's percentile bounds. -/
theorem c5_rescale_bounded_dynamic_range_witness :
    (1 ≤ listSpan [(0:ℚ), 1]) ∧
    listSpan (rescaleIntensity [(0:ℚ), 1]
      (percentile [(0:ℚ), 1] (1/2)) (percentile [(0:ℚ), 1] (199/2))) ≤
      listSpan [(0:ℚ), 1] := by
  have hspan : (1:ℚ) ≤ listSpan [(0:ℚ), 1] := by
    norm_num [listSpan]
  exact ⟨hspan, c5_rescale_bounded_dynamic_range [(0:ℚ), 1] _ _ hspan⟩

/-- Claim C5 counterexample: for the two-pixel image [0, 1/2] (dynamic range
1/2), rescaling with the 0.5 and 99.5 percentile bounds (1/400 and 199/400)
produces the image [0, 1] of dynamic range 1, which is larger — rescaling
does not reduce the dynamic range of that input. -/
theorem c5_counterexample :
    ¬ (listSpan (rescaleIntensity [(0:ℚ), 1/2]
        (percentile [(0:ℚ), 1/2] (1/2)) (percentile [(0:ℚ), 1/2] (199/2))) ≤
       listSpan [(0:ℚ), 1/2]) := by
  have hsort : sortAsc [(0:ℚ), 1/2] = [0, 1/2] := by
    norm_num [sortAsc, insertAsc]
  have hp1 : percentile [(0:ℚ), 1/2] (1/2) = 1/400 := by
    rw [percentile, hsort]
    norm_num [List.getD]
  have hp2 : percentile [(0:ℚ), 1/2] (199/2) = 199/400 := by
    rw [percentile, hsort]
    norm_num [List.getD]
  rw [hp1, hp2]
  have hr : rescaleIntensity [(0:ℚ), 1/2] (1/400) (199/400) = [0, 1] := by
    norm_num [rescaleIntensity, clip, max_def, min_def]
  rw [hr]
  norm_num [listSpan]

/-- Numpy dtypes occurring in the script. -/
inductive Dtype
| float32
| float64
| uint16
deriving DecidableEq

/-- Floating-point dtypes. -/
def Dtype.isFloat : Dtype → Bool
  | .float32 => true
  | .float64 => true
  | .uint16 => false

/-- An n-dimensional array: a shape, a flat pixel buffer in row-major order,
and a dtype.  The pixel type is ℝ for the gamma transform (irrational
powers) and ℚ elsewhere. -/
structure NDImage (α : Type) where
  shape : List Nat
  pixels : List α
  dtype : Dtype

/-- A well-formed ndarray stores exactly one pixel per cell of its shape. -/
def NDImage.wf {α : Type} (im : NDImage α) : Prop :=
  im.pixels.length = im.shape.prod

/-- Modelled from the spec: `adjust_gamma` at array level — the pixelwise
power-law remapping, preserving shape and (for float input) dtype. -/
noncomputable def adjustGammaImg (im : NDImage ℝ) (g : ℝ) : NDImage ℝ :=
  ⟨im.shape, adjustGamma im.pixels g, im.dtype⟩

/-- Modelled from the spec: `equalize_hist` at array level — the CDF
remapping; skimage always produces a float64 array. -/
def equalizeHistImg (im : NDImage ℚ) : NDImage ℚ :=
  ⟨im.shape, equalizeHist im.pixels, .float64⟩

/-- Modelled from the spec: `rescale_intensity` with `out_range=np.float32`
at array level — the output array has dtype float32. -/
def rescaleIntensityImg (im : NDImage ℚ) (imin imax : ℚ) : NDImage ℚ :=
  ⟨im.shape, rescaleIntensity im.pixels imin imax, .float32⟩

/-- Helper: rescaling does not change the number of pixels. -/
theorem rescaleIntensity_length (l : List ℚ) (imin imax : ℚ) :
    (rescaleIntensity l imin imax).length = l.length := by
  unfold rescaleIntensity
  by_cases h : imax = imin <;> simp [h]

/-- Claim C2: each transform as called in the script — gamma adjustment
(on the float image, any gamma), histogram equalization, and percentile
rescaling (any bounds) — produces an array with the same shape as its
input (well-formedness of the pixel buffer included) and a floating-point
dtype. -/
theorem c2_transforms_same_shape_float_dtype
    (imr : NDImage ℝ) (im : NDImage ℚ) (g : ℝ) (imin imax : ℚ)
    (hr : imr.wf) (hq : im.wf) (hrd : imr.dtype.isFloat = true) :
    ((adjustGammaImg imr g).shape = imr.shape ∧ (adjustGammaImg imr g).wf ∧
      (adjustGammaImg imr g).dtype.isFloat = true) ∧
    ((equalizeHistImg im).shape = im.shape ∧ (equalizeHistImg im).wf ∧
      (equalizeHistImg im).dtype.isFloat = true) ∧
    ((rescaleIntensityImg im imin imax).shape = im.shape ∧
      (rescaleIntensityImg im imin imax).wf ∧
      (rescaleIntensityImg im imin imax).dtype.isFloat = true) := by
  refine ⟨⟨rfl, ?_, hrd⟩, ⟨rfl, ?_, rfl⟩, ⟨rfl, ?_, rfl⟩⟩
  · show (adjustGamma imr.pixels g).length = imr.shape.prod
    rw [show adjustGamma imr.pixels g = imr.pixels.map (fun x => x ^ g) from rfl,
      List.length_map]
    exact hr
  · show (equalizeHist im.pixels).length = im.shape.prod
    rw [show equalizeHist im.pixels = im.pixels.map (ecdf im.pixels) from rfl,
      List.length_map]
    exact hq
  · show (rescaleIntensity im.pixels imin imax).length = im.shape.prod
    rw [rescaleIntensity_length]
    exact hq

/-- Claim C2 witness: the shape/dtype facts instantiated at a concrete
well-formed 3D float array for each transform. -/
theorem c2_transforms_same_shape_float_dtype_witness :
    NDImage.wf (NDImage.mk [1, 1, 1] [(0:ℝ)] Dtype.float64) ∧
    NDImage.wf (NDImage.mk [2, 1, 1] [(0:ℚ), 1] Dtype.float64) ∧
    Dtype.isFloat (NDImage.mk [1, 1, 1] [(0:ℝ)] Dtype.float64).dtype = true ∧
    (((adjustGammaImg (NDImage.mk [1, 1, 1] [(0:ℝ)] Dtype.float64) (1/2)).shape = [1, 1, 1] ∧
      (adjustGammaImg (NDImage.mk [1, 1, 1] [(0:ℝ)] Dtype.float64) (1/2)).wf ∧
      (adjustGammaImg (NDImage.mk [1, 1, 1] [(0:ℝ)] Dtype.float64) (1/2)).dtype.isFloat = true) ∧
    ((equalizeHistImg (NDImage.mk [2, 1, 1] [(0:ℚ), 1] Dtype.float64)).shape = [2, 1, 1] ∧
      (equalizeHistImg (NDImage.mk [2, 1, 1] [(0:ℚ), 1] Dtype.float64)).wf ∧
      (equalizeHistImg (NDImage.mk [2, 1, 1] [(0:ℚ), 1] Dtype.float64)).dtype.isFloat = true) ∧
    ((rescaleIntensityImg (NDImage.mk [2, 1, 1] [(0:ℚ), 1] Dtype.float64) 0 1).shape = [2, 1, 1] ∧
      (rescaleIntensityImg (NDImage.mk [2, 1, 1] [(0:ℚ), 1] Dtype.float64) 0 1).wf ∧
      (rescaleIntensityImg (NDImage.mk [2, 1, 1] [(0:ℚ), 1] Dtype.float64) 0 1).dtype.isFloat = true)) :=
  ⟨rfl, rfl, rfl,
    c2_transforms_same_shape_float_dtype
      (NDImage.mk [1, 1, 1] [(0:ℝ)] Dtype.float64)
      (NDImage.mk [2, 1, 1] [(0:ℚ), 1] Dtype.float64)
      (1/2) 0 1 rfl rfl rfl⟩

/-- Module-level global state visible to the helper functions: the global
`data` array's shape, which `slice_in_3D` reads at line 152
(`Z = Z * data.shape`).  Every helper is embedded as a function of this
state plus its explicit arguments. -/
structure ModuleEnv where
  dataShape : List Nat
deriving DecidableEq

/-- Axis labels set by `slice_in_3D` (lines 185–188). -/
inductive Axis3
| x
| y
| z
deriving DecidableEq

/-- Face colors used by `slice_in_3D`. -/
inductive PlotColor
| cyanTransparent
| magenta
deriving DecidableEq

/-- Titles passed to `show_plane` / `plot_hist`: either the formatted
`f'Plane {plane}'` string of `display_slice` or free-form text. -/
inductive PlotTitle
| planeIdx (n : Nat)
| text (s : String)
deriving DecidableEq

/-- One rendering call issued to the external plotting libraries.  Each
constructor records the call with the arguments forwarded to it. -/
inductive RenderCall
| imshowPlane (plane : List (List ℚ)) (cmap : String)
| axisOff
| setTitle (t : PlotTitle)
| imshowMontage (planes : List (List (List ℚ))) (pad : Nat) (cmap : String)
| histogram (values : List ℚ) (bins : Nat)
| tickSci
| scatter3D (pts : List (List ℤ))
| poly3D (verts : List (List (List ℤ))) (color : PlotColor)
| axisLabel (a : Axis3)
| xlim (lo hi : ℤ)
| autoscale
deriving DecidableEq

/-- show_plane (lines 94–99): forwards the plane to `ax.imshow`, switches
the axis off, and sets the title when one is given. -/
def show_plane (env : ModuleEnv) (plane : List (List ℚ)) (cmap : String)
    (title : Option PlotTitle) : List RenderCall :=
  [.imshowPlane plane cmap, .axisOff] ++
    (match title with
     | some t => [.setTitle t]
     | none => [])

/-- Every step-th element of a list: the slice `im3d[::step]`. -/
def everyStep {α : Type} (l : List α) (step : Nat) : List α :=
  (l.enum.filter (fun p => p.1 % step == 0)).map (fun p => p.2)

/-- display (lines 115–119): builds a montage of every step-th plane with
padding width 4 and forwards it to `ax.imshow`; the montage call is
recorded with its arguments. -/
def display (env : ModuleEnv) (im3d : List (List (List ℚ))) (cmap : String)
    (step : Nat) : List RenderCall :=
  [.imshowMontage (everyStep im3d step) 4 cmap, .axisOff]

/-- plot_hist (lines 233–239): histogram of the raveled array with 256
bins and scientific y-tick formatting, plus the optional title. -/
def plot_hist (env : ModuleEnv) (d : List (List (List ℚ)))
    (title : Option PlotTitle) : List RenderCall :=
  [.histogram d.flatten.flatten 256, .tickSci] ++
    (match title with
     | some t => [.setTitle t]
     | none => [])

/-- Line 139: the eight corners of the unit cube. -/
def cubeCorners : List (List ℤ) :=
  [[0, 0, 0], [1, 0, 0], [1, 1, 0], [0, 1, 0],
   [0, 0, 1], [1, 0, 1], [1, 1, 1], [0, 1, 1]]

/-- Lines 160–168: the faces of the scaled cube, exactly as listed in the
source (the face [Z2, Z3, Z7, Z6] appears twice there). -/
def cubeFaces (Z : List (List ℤ)) : List (List (List ℤ)) :=
  [[Z.getD 0 [], Z.getD 1 [], Z.getD 2 [], Z.getD 3 []],
   [Z.getD 4 [], Z.getD 5 [], Z.getD 6 [], Z.getD 7 []],
   [Z.getD 0 [], Z.getD 1 [], Z.getD 5 [], Z.getD 4 []],
   [Z.getD 2 [], Z.getD 3 [], Z.getD 7 [], Z.getD 6 []],
   [Z.getD 1 [], Z.getD 2 [], Z.getD 6 [], Z.getD 5 []],
   [Z.getD 4 [], Z.getD 7 [], Z.getD 3 [], Z.getD 0 []],
   [Z.getD 2 [], Z.getD 3 [], Z.getD 7 [], Z.getD 6 []]]

/-- Lines 177–179: the magenta slab marking plane i, scaled by the
hardcoded (60, 256, 256) and shifted by [i, 0, 0]. -/
def slabVerts (i : Nat) : List (List (List ℤ)) :=
  [[[0, 0, 0], [0, 0, 1], [0, 1, 1], [0, 1, 0]]].map (fun q =>
    q.map (fun v =>
      List.zipWith (· + ·) (List.zipWith (· * ·) v [60, 256, 256]) [(i:ℤ), 0, 0]))

/-- slice_in_3D (lines 137–192): scatters the cube corners scaled by the
global `data.shape` (line 152 — a module-level read, not a parameter),
draws the cube faces, draws the magenta slab for plane i, and sets axis
labels and limits. -/
def slice_in_3D (env : ModuleEnv) (i : Nat) : List RenderCall :=
  let Z := cubeCorners.map (fun v =>
    List.zipWith (fun a b => a * ((b:ℤ))) v env.dataShape)
  [.scatter3D Z,
   .poly3D (cubeFaces Z) .cyanTransparent,
   .poly3D (slabVerts i) .magenta,
   .axisLabel .x, .xlim 0 100, .axisLabel .y, .axisLabel .z,
   .autoscale]

/-- display_slice (lines 201–209): shows `data[plane]` with the formatted
title and draws the 3D cube via `slice_in_3D`. -/
def display_slice (env : ModuleEnv) (d : List (List (List ℚ)))
    (cmap : String) (plane : Nat) : List RenderCall :=
  show_plane env (d.getD plane []) cmap (some (.planeIdx plane)) ++
    slice_in_3D env plane

/-- explore_slices (lines 195–211) as invoked by the widget library at the
declared default plane=34 (modelled from the spec: the slider binding is
external UI machinery). -/
def explore_slices (env : ModuleEnv) (d : List (List (List ℚ)))
    (cmap : String) : List RenderCall :=
  display_slice env d cmap defaultPlane

/-- Claim C8 counterexample: `slice_in_3D` is not a stateless parameter
pass-through: with identical explicit arguments it issues different
rendering calls under two module states whose global `data` shapes differ
((60, 256, 256) versus (30, 256, 256)), because line 152 reads the
module-level `data.shape`. -/
theorem c8_counterexample :
    slice_in_3D (ModuleEnv.mk [60, 256, 256]) 34 ≠
      slice_in_3D (ModuleEnv.mk [30, 256, 256]) 34 := by
  decide

/-- Claim C8 (amended): show_plane, display, and plot_hist are stateless
parameter pass-throughs — the rendering calls they issue are identical
under any two module states given the same explicit arguments — but
slice_in_3D (and hence display_slice and explore_slices, which call it)
additionally reads the module-level `data.shape`. -/
theorem c8_pure_helpers_ignore_module_state (env env' : ModuleEnv)
    (plane : List (List ℚ)) (im3d : List (List (List ℚ))) (cmap : String)
    (title : Option PlotTitle) (step : Nat) :
    show_plane env plane cmap title = show_plane env' plane cmap title ∧
    display env im3d cmap step = display env' im3d cmap step ∧
    plot_hist env im3d title = plot_hist env' im3d title :=
  ⟨rfl, rfl, rfl⟩

/-- Modelled from the spec: "transforms ... produce new arrays".  A store of
arrays in which applying a transform reads an existing array and appends
its freshly produced result, never writing into an existing entry — the
out-of-place semantics of the numpy/skimage calls in the script. -/
def applyTransform {α : Type} (s : List (List α)) (f : List α → List α)
    (i : Nat) : List (List α) :=
  s ++ [f (s.getD i [])]

/-- Lines 243 and 246: both gamma adjustments applied to the array stored
at index 0 (`data`), each appending a fresh result. -/
noncomputable def gammaRun (d : List ℝ) : List (List ℝ) :=
  applyTransform
    (applyTransform [d] (fun l => adjustGamma l (1/2)) 0)
    (fun l => adjustGamma l (3/2)) 0

/-- Lines 267 and 301–305: histogram equalization and percentile rescaling
applied to the array stored at index 0 (`data`), each appending a fresh
result. -/
def contrastRun (d : List ℚ) : List (List ℚ) :=
  applyTransform
    (applyTransform [d] equalizeHist 0)
    (fun l => rescaleIntensity l (percentile l (1/2)) (percentile l (199/2))) 0

/-- Claim C9: the input array is immutable under each transform — after the
script's gamma adjustments, histogram equalization, and percentile
rescaling have all been applied, the original `data` entry of the store is
unchanged, and in general applying any transform to any store leaves every
existing entry as it was (results are only appended). -/
theorem c9_transforms_leave_input_unchanged (d : List ℚ) (dr : List ℝ) :
    (gammaRun dr).getD 0 [] = dr ∧
    (contrastRun d).getD 0 [] = d ∧
    (∀ (s : List (List ℚ)) (f : List ℚ → List ℚ) (i j : Nat),
      j < s.length → (applyTransform s f i).getD j [] = s.getD j []) :=
  ⟨rfl, rfl, fun s f i j hj => List.getD_append s _ [] j hj⟩

/-- Claim C9 witness: the immutability statement applied to concrete
one-pixel arrays and a concrete one-entry store. -/
theorem c9_transforms_leave_input_unchanged_witness :
    0 < ([[(0:ℚ)]] : List (List ℚ)).length ∧
    (gammaRun [(0:ℝ)]).getD 0 [] = [(0:ℝ)] ∧
    (contrastRun [(0:ℚ)]).getD 0 [] = [(0:ℚ)] ∧
    (applyTransform [[(0:ℚ)]] equalizeHist 0).getD 0 [] =
      ([[(0:ℚ)]] : List (List ℚ)).getD 0 [] := by
  have h := c9_transforms_leave_input_unchanged [(0:ℚ)] [(0:ℝ)]
  exact ⟨by decide, h.1, h.2.1, h.2.2 [[(0:ℚ)]] equalizeHist 0 0 (by decide)⟩

end Plot3DImage
